import Mathlib

/-!
Verification of the invoicing system (FastAPI endpoint `api.py`, adapter
`invoice_parser.py`) against its natural-language specification.

The development shallowly embeds the Python source.  External dependencies
are modelled explicitly:

* the `json_repair` library is modelled by `json_repair_loads`: like the
  library it first attempts a strict JSON parse (the library delegates to
  Python `json.loads`) and, when that fails, falls back to a lenient
  repair parse that tolerates trailing commas in objects and arrays and
  skips leading non-JSON text at the root; at the root the lenient pass
  only accepts objects and arrays (as the library does when the parsing
  context is empty) and yields the empty string when nothing usable is
  found.  Exotic repairs of the library (unquoted keys, comments,
  alternative quote characters, concatenated documents) are outside the
  fragment needed here and are not modelled.
* the Gemini client and `base64.b64decode` are modelled by an environment
  record `ExternalEnv` of functions, so a deterministic stub model is an
  ordinary value of that record.
-/

set_option autoImplicit false

namespace Invoicing

/-- A JSON value as produced by the Python `json` / `json_repair` loaders.
Numbers are kept exactly as mantissa times a power of ten, covering both
Python ints and floats written in decimal or scientific notation. -/
inductive JsonValue where
  | null : JsonValue
  | bool (b : Bool) : JsonValue
  | num (mantissa : Int) (exp10 : Int) : JsonValue
  | str (s : String) : JsonValue
  | arr (elems : List JsonValue) : JsonValue
  | obj (fields : List (String × JsonValue)) : JsonValue

/-- Python truthiness on decoded JSON values: None, False, zero, the empty
string, the empty list and the empty dict are falsy. -/
def pyFalsy : JsonValue → Bool
  | JsonValue.null => true
  | JsonValue.bool b => !b
  | JsonValue.num m _ => m == 0
  | JsonValue.str s => s == ""
  | JsonValue.arr xs => xs.isEmpty
  | JsonValue.obj fs => fs.isEmpty

/-- Skip JSON whitespace. -/
def skipWs : List Char → List Char
  | [] => []
  | c :: cs => if c = ' ' ∨ c = '\t' ∨ c = '\n' ∨ c = '\r' then skipWs cs else c :: cs

/-- Value of one hexadecimal digit. -/
def hexVal (c : Char) : Option Nat :=
  if '0' ≤ c ∧ c ≤ '9' then some (c.toNat - '0'.toNat)
  else if 'a' ≤ c ∧ c ≤ 'f' then some (c.toNat - 'a'.toNat + 10)
  else if 'A' ≤ c ∧ c ≤ 'F' then some (c.toNat - 'A'.toNat + 10)
  else none

/-- Single-character JSON string escapes. -/
def escMap (c : Char) : Option Char :=
  if c = '"' then some '"'
  else if c = '\\' then some '\\'
  else if c = '/' then some '/'
  else if c = 'b' then some (Char.ofNat 8)
  else if c = 'f' then some (Char.ofNat 12)
  else if c = 'n' then some '\n'
  else if c = 'r' then some '\r'
  else if c = 't' then some '\t'
  else none

/-- Parse the remainder of a JSON string after the opening quote, returning
the decoded characters and the rest of the input. -/
def parseStringRest : List Char → Option (List Char × List Char)
  | [] => none
  | '"' :: cs => some ([], cs)
  | '\\' :: 'u' :: h1 :: h2 :: h3 :: h4 :: cs =>
    match hexVal h1, hexVal h2, hexVal h3, hexVal h4 with
    | some a, some b, some c, some d =>
      match parseStringRest cs with
      | some (out, rest) => some (Char.ofNat (((a * 16 + b) * 16 + c) * 16 + d) :: out, rest)
      | none => none
    | _, _, _, _ => none
  | '\\' :: e :: cs =>
    match escMap e with
    | some c =>
      match parseStringRest cs with
      | some (out, rest) => some (c :: out, rest)
      | none => none
    | none => none
  | c :: cs =>
    match parseStringRest cs with
    | some (out, rest) => some (c :: out, rest)
    | none => none

/-- Take the maximal prefix of decimal digits. -/
def takeDigits : List Char → List Char × List Char
  | [] => ([], [])
  | c :: cs =>
    if c.isDigit then
      let p := takeDigits cs
      (c :: p.1, p.2)
    else ([], c :: cs)

/-- Accumulate decimal digits into a natural number. -/
def digitsToNat (acc : Nat) : List Char → Nat
  | [] => acc
  | c :: cs => digitsToNat (acc * 10 + (c.toNat - '0'.toNat)) cs

/-- Parse a JSON number (sign, integer part, optional fraction, optional
exponent).  In strict mode a redundant leading zero is rejected, as Python
`json.loads` rejects it. -/
def parseNumber (strict : Bool) (cs : List Char) : Option (JsonValue × List Char) :=
  let sgn : Bool × List Char :=
    match cs with
    | '-' :: r => (true, r)
    | _ => (false, cs)
  match takeDigits sgn.2 with
  | ([], _) => none
  | (ds, cs2) =>
    if strict ∧ 2 ≤ ds.length ∧ ds.headD '0' = '0' then none
    else
      let intMant : Nat := digitsToNat 0 ds
      let frac : Option (Nat × Nat × List Char) :=
        match cs2 with
        | '.' :: r =>
          match takeDigits r with
          | ([], _) => none
          | (fs, r2) => some (digitsToNat intMant fs, fs.length, r2)
        | _ => some (intMant, 0, cs2)
      match frac with
      | none => none
      | some (mant, scale, cs3) =>
        let expo : Option (Int × List Char) :=
          match cs3 with
          | 'e' :: r =>
            match r with
            | '-' :: r2 =>
              match takeDigits r2 with
              | ([], _) => none
              | (es, r3) => some (-(digitsToNat 0 es : Int), r3)
            | '+' :: r2 =>
              match takeDigits r2 with
              | ([], _) => none
              | (es, r3) => some ((digitsToNat 0 es : Int), r3)
            | _ =>
              match takeDigits r with
              | ([], _) => none
              | (es, r3) => some ((digitsToNat 0 es : Int), r3)
          | 'E' :: r =>
            match r with
            | '-' :: r2 =>
              match takeDigits r2 with
              | ([], _) => none
              | (es, r3) => some (-(digitsToNat 0 es : Int), r3)
            | '+' :: r2 =>
              match takeDigits r2 with
              | ([], _) => none
              | (es, r3) => some ((digitsToNat 0 es : Int), r3)
            | _ =>
              match takeDigits r with
              | ([], _) => none
              | (es, r3) => some ((digitsToNat 0 es : Int), r3)
          | _ => some (0, cs3)
        match expo with
        | none => none
        | some (e, cs4) =>
          let m : Int := if sgn.1 then -(mant : Int) else (mant : Int)
          some (JsonValue.num m (e - (scale : Int)), cs4)

/-- Work item of the recursive-descent JSON parser: a value, the element
loop of an array, or the member loop of an object. -/
inductive ParseTask where
  | value : ParseTask
  | arrElems (acc : List JsonValue) (afterComma : Bool) : ParseTask
  | objMembers (acc : List (String × JsonValue)) (afterComma : Bool) : ParseTask

/-- Fuel-indexed recursive-descent JSON parser.  With `strict := true` it
follows Python `json.loads` (no trailing commas); with `strict := false` it
follows the repair pass of `json_repair`, which closes an object or array
even when a comma immediately precedes the closing bracket. -/
def parseStep (strict : Bool) : Nat → ParseTask → List Char → Option (JsonValue × List Char)
  | 0, _, _ => none
  | f + 1, ParseTask.value, cs =>
    match skipWs cs with
    | [] => none
    | c :: rest =>
      if c = 'n' then
        match rest with
        | 'u' :: 'l' :: 'l' :: r => some (JsonValue.null, r)
        | _ => none
      else if c = 't' then
        match rest with
        | 'r' :: 'u' :: 'e' :: r => some (JsonValue.bool true, r)
        | _ => none
      else if c = 'f' then
        match rest with
        | 'a' :: 'l' :: 's' :: 'e' :: r => some (JsonValue.bool false, r)
        | _ => none
      else if c = '"' then
        match parseStringRest rest with
        | some (out, r) => some (JsonValue.str (String.mk out), r)
        | none => none
      else if c = '[' then parseStep strict f (ParseTask.arrElems [] false) rest
      else if c = '\x7b' then parseStep strict f (ParseTask.objMembers [] false) rest
      else if c = '-' ∨ c.isDigit then parseNumber strict (c :: rest)
      else none
  | f + 1, ParseTask.arrElems acc afterComma, cs =>
    match skipWs cs with
    | ']' :: r =>
      if strict ∧ afterComma then none else some (JsonValue.arr acc.reverse, r)
    | cs2 =>
      match parseStep strict f ParseTask.value cs2 with
      | none => none
      | some (v, r) =>
        match skipWs r with
        | ',' :: r2 => parseStep strict f (ParseTask.arrElems (v :: acc) true) r2
        | ']' :: r2 => some (JsonValue.arr (v :: acc).reverse, r2)
        | _ => none
  | f + 1, ParseTask.objMembers acc afterComma, cs =>
    match skipWs cs with
    | '\x7d' :: r =>
      if strict ∧ afterComma then none else some (JsonValue.obj acc.reverse, r)
    | '"' :: r =>
      match parseStringRest r with
      | none => none
      | some (key, r2) =>
        match skipWs r2 with
        | ':' :: r3 =>
          match parseStep strict f ParseTask.value r3 with
          | none => none
          | some (v, r4) =>
            match skipWs r4 with
            | ',' :: r5 => parseStep strict f (ParseTask.objMembers ((String.mk key, v) :: acc) true) r5
            | '\x7d' :: r5 => some (JsonValue.obj ((String.mk key, v) :: acc).reverse, r5)
            | _ => none
        | _ => none
    | _ => none

/-- Python `json.loads`: strict parse of one JSON document followed only by
whitespace. -/
def json_loads (text : String) : Option JsonValue :=
  match parseStep true (2 * text.length + 8) ParseTask.value text.data with
  | some (v, rest) =>
    match skipWs rest with
    | [] => some v
    | _ => none
  | none => none

/-- Root scan of the repair pass: skip characters until an object or array
opens (the library ignores strings and numbers while the parsing context is
empty) and parse from there; yield the empty string when nothing usable is
found. -/
def repairRoot (fuel : Nat) : List Char → JsonValue
  | [] => JsonValue.str ""
  | c :: cs =>
    if c = '\x7b' ∨ c = '[' then
      match parseStep false fuel ParseTask.value (c :: cs) with
      | some (v, _) => v
      | none => JsonValue.str ""
    else repairRoot fuel cs

/-- Model of `json_repair.loads`: strict `json.loads` first, then the
lenient repair pass. -/
def json_repair_loads (text : String) : JsonValue :=
  match json_loads text with
  | some v => v
  | none => repairRoot (2 * text.length + 8) text.data

/-! ## Pydantic schema (`Product`, `InvoiceData`, `InvoiceResponse`)

Structural conformance predicates read off the pydantic model declarations
of `invoice_parser.py`: required keys, value types and the declared length
bounds.  Extra keys are ignored, as the pydantic default does, and a float
field accepts any JSON number while an int field accepts a JSON number
denoting an integer. -/

/-- First binding of a key in a decoded JSON object. -/
def jsonLookup (fields : List (String × JsonValue)) (key : String) : Option JsonValue :=
  match fields with
  | [] => none
  | (k, v) :: rest => if k = key then some v else jsonLookup rest key

/-- A JSON number denotes an integer when its scaled mantissa is whole. -/
def numIsInt (m e : Int) : Bool :=
  if 0 ≤ e then true else decide ((10 : Int) ^ (-e).toNat ∣ m)

/-- Value acceptable for a pydantic `float` field. -/
def isFloatValue : JsonValue → Bool
  | JsonValue.num _ _ => true
  | _ => false

/-- Value acceptable for a pydantic `int` field. -/
def isIntValue : JsonValue → Bool
  | JsonValue.num m e => numIsInt m e
  | _ => false

/-- Conformance to the `Product` model: Item_ID (str, length 5 to 12),
Item_Description (str, length at least 5), Unit_Price (float), Quantity
(int), Tax (float), Total_Amount (float), all required. -/
def matchesProduct (v : JsonValue) : Bool :=
  match v with
  | JsonValue.obj fs =>
    (match jsonLookup fs "Item_ID" with
     | some (JsonValue.str s) => decide (5 ≤ s.length) && decide (s.length ≤ 12)
     | _ => false)
    && (match jsonLookup fs "Item_Description" with
        | some (JsonValue.str s) => decide (5 ≤ s.length)
        | _ => false)
    && (match jsonLookup fs "Unit_Price" with
        | some w => isFloatValue w
        | _ => false)
    && (match jsonLookup fs "Quantity" with
        | some w => isIntValue w
        | _ => false)
    && (match jsonLookup fs "Tax" with
        | some w => isFloatValue w
        | _ => false)
    && (match jsonLookup fs "Total_Amount" with
        | some w => isFloatValue w
        | _ => false)
  | _ => false

/-- Conformance to the `InvoiceData` model: `date` required but nullable
(str of length 8 to 10 when present), `products` a list of `Product`
with default `[]`. -/
def matchesInvoiceData (v : JsonValue) : Bool :=
  match v with
  | JsonValue.obj fs =>
    (match jsonLookup fs "date" with
     | some JsonValue.null => true
     | some (JsonValue.str s) => decide (8 ≤ s.length) && decide (s.length ≤ 10)
     | _ => false)
    && (match jsonLookup fs "products" with
        | none => true
        | some (JsonValue.arr xs) => xs.all matchesProduct
        | some _ => false)
  | _ => false

/-- Conformance to the `InvoiceResponse` model: a required `data` key
holding an `InvoiceData`. -/
def matchesInvoiceResponse (v : JsonValue) : Bool :=
  match v with
  | JsonValue.obj fs =>
    (match jsonLookup fs "data" with
     | some d => matchesInvoiceData d
     | none => false)
  | _ => false

/-! ## The `InvoiceParser` adapter (`invoice_parser.py`) -/

/-- State held by an `InvoiceParser` instance after `__init__`: the
resolved API key and the model identifier.  `extract_invoice` never
assigns an attribute, so the state is read-only during a call. -/
structure InvoiceParserState where
  api_key : String
  model : String

/-- One part of the multimodal request: an image with its MIME type, or a
text part. -/
inductive ReqPart where
  | image (mime : String) (bytes : List Nat) : ReqPart
  | text (s : String) : ReqPart

/-- The generation configuration built by `extract_invoice` (temperature,
thinking budget, response MIME type, response schema, system instruction). -/
structure GenerateContentConfig where
  temperature : Rat
  thinking_budget : Nat
  response_mime_type : String
  response_schema : String
  system_instruction : String

/-- The fixed system instruction string of `_system_message`. -/
def system_message : String :=
  String.intercalate "\n"
    ["You are a helpful assistant specialized in extracting structured data from images of Arabic VAT invoices.",
     "The user will provide an image of an invoice. Extract all data and combine into one JSON.",
     "Extract for each product: Item_ID, Item_Description, Unit_Price, Quantity, Tax, and Total_Amount.",
     "Also extract the invoice issue date (DD-MM-YYYY)",
     "Follow the exact Pydantic schema. Output JSON only — no extra text or explanation.",
     "If invoice is in Arabic, keep all Arabic text and digits as-is."]

/-- The user prompt of `_user_prompt`: the join of a single empty line. -/
def user_prompt : String := String.intercalate "\n" [""]

/-- The configuration value passed to `generate_content`. -/
def generate_content_config : GenerateContentConfig :=
  { temperature := 0.2
    thinking_budget := 0
    response_mime_type := "application/json"
    response_schema := "InvoiceResponse"
    system_instruction := system_message }

/-- Environment of external effects: `base64.b64decode` (`none` models a
raised `binascii` error) and the Gemini call `generate_content` taking the
model name, the request parts and the configuration (`Except.error` models
a raised exception, `Except.ok none` a response whose `text` attribute is
`None`, `Except.ok (some t)` a textual reply `t`).  Both are functions, so
the modelled external service is deterministic. -/
structure ExternalEnv where
  b64decode : String → Option (List Nat)
  generate_content : String → List ReqPart → GenerateContentConfig → Except String (Option String)

/-- The decoding list comprehension of `extract_invoice`: decode each
base64 payload into an `image/jpeg` part, stopping at the first raised
decode error. -/
def decodeParts (dec : String → Option (List Nat)) : List String → Option (List ReqPart)
  | [] => some []
  | s :: ss =>
    match dec s with
    | none => none
    | some bytes =>
      match decodeParts dec ss with
      | none => none
      | some ps => some (ReqPart.image "image/jpeg" bytes :: ps)

/-- `InvoiceParser.parse_json`: delegate to `json_repair.loads`; the
`except` branch returning `None` is only reachable if the library itself
raises, which the library model never does. -/
def parse_json (text : String) : Option JsonValue :=
  some (json_repair_loads text)

/-- `InvoiceParser.extract_invoice`: decode the images, append the user
prompt part, call the model, repair-parse the reply, and return `None` on
any failure or on a falsy parse result. -/
def extract_invoice (env : ExternalEnv) (self : InvoiceParserState)
    (b64_images : List String) : Option JsonValue :=
  match decodeParts env.b64decode b64_images with
  | none => none
  | some imgParts =>
    let parts := imgParts ++ [ReqPart.text user_prompt]
    match env.generate_content self.model parts generate_content_config with
    | Except.error _ => none
    | Except.ok none => none
    | Except.ok (some text) =>
      match parse_json text with
      | none => none
      | some json_response =>
        if pyFalsy json_response then none else some json_response

/-- Python `or` on an optional string: an empty string is falsy and falls
through to the right operand, as does `None`. -/
def pyOr (a b : Option String) : Option String :=
  match a with
  | none => b
  | some s => if s = "" then b else some s

/-- `InvoiceParser.__init__`: resolve the key from the argument or the
`GEMINI_API_KEY` environment variable, raise `ValueError` when the result
is falsy, and only then construct the Gemini client (`client_init`). -/
def invoiceParser_init (env_gemini_api_key : Option String)
    (client_init : String → Except String Unit)
    (api_key : Option String) (model : String) : Except String InvoiceParserState :=
  match pyOr api_key env_gemini_api_key with
  | none => Except.error "Gemini API key not provided"
  | some k =>
    if k = "" then Except.error "Gemini API key not provided"
    else
      match client_init k with
      | Except.error e => Except.error e
      | Except.ok _ => Except.ok { api_key := k, model := model }

/-! ## The HTTP endpoint (`api.py`) -/

/-- Python `str.split` with a one-character separator: never returns the
empty list, and splitting the empty string yields one empty segment. -/
def pySplit (sep : Char) : List Char → List (List Char)
  | [] => [[]]
  | c :: cs =>
    match pySplit sep cs with
    | [] => [[]]
    | p :: ps => if c = sep then [] :: p :: ps else (c :: p) :: ps

/-- Python index `[-1]` on a list that is nonempty by construction. -/
def pyNeg1 (l : List (List Char)) : List Char :=
  (l.getLast?).getD []

/-- Line 19 of `api.py`:
`request.image.split(",")[-1] if "," in request.image else request.image`. -/
def stripDataUri (image : String) : String :=
  if ',' ∈ image.data then String.mk (pyNeg1 (pySplit ',' image.data)) else image

/-- Exceptions that can cross the endpoint `try` block: an
`HTTPException` carrying a status and detail, or any other exception
carrying its message.  `HTTPException` subclasses `Exception`, so both are
caught by the catch-all handler. -/
inductive PyExc where
  | httpException (status : Nat) (detail : String) : PyExc
  | exception (msg : String) : PyExc

/-- Observable endpoint outcome: an HTTP 200 JSON body, or the JSON error
response FastAPI builds from a raised `HTTPException`. -/
inductive EndpointResponse where
  | ok (body : JsonValue) : EndpointResponse
  | httpError (status : Nat) (detail : String) : EndpointResponse

/-- The `try` block of `process_invoice` given the adapter call outcome:
a falsy result raises `HTTPException(500, "Invoice processing failed")`
inside the block; an adapter exception propagates. -/
def endpoint_try (result : Except PyExc (Option JsonValue)) : Except PyExc JsonValue :=
  match result with
  | Except.error e => Except.error e
  | Except.ok invoice_data =>
    match invoice_data with
    | none => Except.error (PyExc.httpException 500 "Invoice processing failed")
    | some v =>
      if pyFalsy v then Except.error (PyExc.httpException 500 "Invoice processing failed")
      else Except.ok v

/-- The `except Exception` handler of `process_invoice`: any exception
escaping the `try` block — the inner `HTTPException` included — is replaced
by `HTTPException(500, "Internal server error")`. -/
def endpoint_except (t : Except PyExc JsonValue) : EndpointResponse :=
  match t with
  | Except.ok v => EndpointResponse.ok v
  | Except.error _ => EndpointResponse.httpError 500 "Internal server error"

/-- The endpoint body over an arbitrary adapter call. -/
def process_invoice_with (adapter : List String → Except PyExc (Option JsonValue))
    (image : String) : EndpointResponse :=
  endpoint_except (endpoint_try (adapter [stripDataUri image]))

/-- `process_invoice` of `api.py`: strip the data-URI prefix and run the
try/except body around `parser.extract_invoice([b64_image])`, which itself
never raises. -/
def process_invoice (env : ExternalEnv) (self : InvoiceParserState)
    (image : String) : EndpointResponse :=
  process_invoice_with (fun imgs => Except.ok (extract_invoice env self imgs)) image

/-- One endpoint invocation with explicit threading of the module-level
parser state, which no handler code mutates. -/
def process_invoice_call (env : ExternalEnv) (self : InvoiceParserState)
    (image : String) : EndpointResponse × InvoiceParserState :=
  (process_invoice env self image, self)

/-! ## Stub environments used by the concrete theorems -/

/-- Deterministic stub: decoding always succeeds and the model always
replies with the fixed text `reply`. -/
def stubEnv (reply : String) : ExternalEnv :=
  { b64decode := fun _ => some []
    generate_content := fun _ _ _ => Except.ok (some reply) }

/-- Environment whose base64 decoding always raises. -/
def failDecodeEnv : ExternalEnv :=
  { b64decode := fun _ => none
    generate_content := fun _ _ _ => Except.ok (some "\x7b\x7d") }

/-- A parser state holding the default model identifier. -/
def defaultState : InvoiceParserState :=
  { api_key := "key", model := "gemini-2.5-flash" }

/-! ## Helper lemmas about `pySplit` and the last segment -/

/-- The maximal comma-free suffix of a character list. -/
def lastSeg : List Char → List Char
  | [] => []
  | c :: cs => if ',' ∈ cs then lastSeg cs else if c = ',' then cs else c :: cs

theorem lastSeg_of_not_mem : ∀ cs : List Char, ',' ∉ cs → lastSeg cs = cs := by
  intro cs h
  cases cs with
  | nil => rfl
  | cons c cs =>
    rw [List.mem_cons, not_or] at h
    rw [lastSeg, if_neg h.2, if_neg (fun hc => h.1 hc.symm)]

theorem pySplit_cons_eq (sep c : Char) (cs p : List Char) (ps : List (List Char))
    (h : pySplit sep cs = p :: ps) :
    pySplit sep (c :: cs) = if c = sep then [] :: p :: ps else (c :: p) :: ps := by
  rw [pySplit, h]

theorem pySplit_ne_nil (sep : Char) : ∀ cs : List Char, pySplit sep cs ≠ [] := by
  intro cs
  induction cs with
  | nil => simp [pySplit]
  | cons c cs ih =>
    obtain ⟨p, ps, hps⟩ : ∃ p ps, pySplit sep cs = p :: ps := by
      cases h : pySplit sep cs with
      | nil => exact absurd h ih
      | cons p ps => exact ⟨p, ps, rfl⟩
    rw [pySplit_cons_eq sep c cs p ps hps]
    split <;> simp

theorem pySplit_mem_iff : ∀ cs : List Char, ',' ∈ cs ↔ 2 ≤ (pySplit ',' cs).length := by
  intro cs
  induction cs with
  | nil => simp [pySplit]
  | cons c cs ih =>
    obtain ⟨p, ps, hps⟩ : ∃ p ps, pySplit ',' cs = p :: ps := by
      cases h : pySplit ',' cs with
      | nil => exact absurd h (pySplit_ne_nil ',' cs)
      | cons p ps => exact ⟨p, ps, rfl⟩
    rw [List.mem_cons, pySplit_cons_eq ',' c cs p ps hps]
    rw [hps] at ih
    by_cases hc : c = ','
    · rw [if_pos hc]
      simp [hc]
    · rw [if_neg hc]
      have hcc : ¬(',' = c) := fun h => hc h.symm
      simp only [hcc, false_or, List.length_cons] at ih ⊢
      exact ih

theorem pyNeg1_pySplit : ∀ cs : List Char, pyNeg1 (pySplit ',' cs) = lastSeg cs := by
  intro cs
  induction cs with
  | nil => rfl
  | cons c cs ih =>
    obtain ⟨p, ps, hps⟩ : ∃ p ps, pySplit ',' cs = p :: ps := by
      cases h : pySplit ',' cs with
      | nil => exact absurd h (pySplit_ne_nil ',' cs)
      | cons p ps => exact ⟨p, ps, rfl⟩
    rw [pySplit_cons_eq ',' c cs p ps hps]
    by_cases hc : c = ','
    · rw [if_pos hc]
      have h1 : pyNeg1 ([] :: p :: ps) = pyNeg1 (p :: ps) := by
        simp [pyNeg1, List.getLast?_cons_cons]
      rw [h1, ← hps, ih]
      by_cases hm : ',' ∈ cs
      · rw [lastSeg, if_pos hm]
      · rw [lastSeg, if_neg hm, if_pos hc, lastSeg_of_not_mem cs hm]
    · rw [if_neg hc]
      cases ps with
      | nil =>
        have hm : ',' ∉ cs := by
          rw [pySplit_mem_iff, hps]
          simp
        have hp : p = cs := by
          have h2 := ih
          rw [hps, lastSeg_of_not_mem cs hm] at h2
          simpa [pyNeg1] using h2
        rw [lastSeg, if_neg hm, if_neg hc, hp]
        simp [pyNeg1]
      | cons q qs =>
        have hm : ',' ∈ cs := by
          rw [pySplit_mem_iff, hps]
          simp
        have h1 : pyNeg1 ((c :: p) :: q :: qs) = pyNeg1 (p :: q :: qs) := by
          simp [pyNeg1, List.getLast?_cons_cons]
        rw [h1, ← hps, ih, lastSeg, if_pos hm]

theorem lastSeg_spec : ∀ cs : List Char,
    ',' ∉ lastSeg cs ∧ (',' ∈ cs → ∃ p, cs = p ++ ',' :: lastSeg cs) := by
  intro cs
  induction cs with
  | nil => exact ⟨by simp [lastSeg], by simp⟩
  | cons c cs ih =>
    by_cases hm : ',' ∈ cs
    · rw [lastSeg, if_pos hm]
      refine ⟨ih.1, fun _ => ?_⟩
      obtain ⟨q, hq⟩ := ih.2 hm
      exact ⟨c :: q, by rw [List.cons_append, ← hq]⟩
    · by_cases hc : c = ','
      · rw [lastSeg, if_neg hm, if_pos hc]
        exact ⟨hm, fun _ => ⟨[], by rw [hc]; rfl⟩⟩
      · rw [lastSeg, if_neg hm, if_neg hc]
        constructor
        · rw [List.mem_cons, not_or]
          exact ⟨fun h => hc h.symm, hm⟩
        · intro h
          rw [List.mem_cons] at h
          rcases h with h | h
          · exact absurd h.symm hc
          · exact absurd h hm

/-- Any failing base64 payload in the batch makes the decoding
comprehension raise, hence decode to `none`. -/
theorem decodeParts_eq_none (dec : String → Option (List Nat)) :
    ∀ (l : List String) (img : String), img ∈ l → dec img = none →
      decodeParts dec l = none := by
  intro l
  induction l with
  | nil => intro img h; cases h
  | cons s ss ih =>
    intro img hmem hfail
    cases hd : dec s with
    | none =>
      simp only [decodeParts]
      rw [hd]
    | some bytes =>
      have hne : img ≠ s := by
        intro he
        rw [he, hd] at hfail
        cases hfail
      have himg : img ∈ ss := by
        rcases List.mem_cons.mp hmem with h | h
        · exact absurd h hne
        · exact h
      have hrec := ih img himg hfail
      simp only [decodeParts]
      rw [hd, hrec]

/-! ## Claims -/

/-- Claim C1 (code bug): when the adapter returns a null result the claim
and the detail string written at line 24 of `api.py` say the endpoint
answers HTTP 500 with detail "Invoice processing failed"; but that
`HTTPException` is raised inside the `try` block whose catch-all
`except Exception` captures it (HTTPException subclasses Exception) and
re-raises with the generic message, so the observable detail is
"Internal server error".  Evaluated at a request with body image "AAAA"
and a stub model replying the empty string. -/
theorem C1_null_result_detail :
    extract_invoice (stubEnv "") defaultState [stripDataUri "AAAA"] = none ∧
    process_invoice (stubEnv "") defaultState "AAAA"
      = EndpointResponse.httpError 500 "Internal server error" ∧
    ("Internal server error" == "Invoice processing failed") = false :=
  ⟨rfl, rfl, by decide⟩

/-- Claim C2, counterexample: with a stub model replying the JSON object
with single key "x" and value 1 — a successful repair — `extract_invoice`
returns that object unchanged even though it does not conform to the
`InvoiceResponse` schema, and the endpoint answers HTTP 200 with it; so
the repaired JSON is not validated against the Invoice schema before
being returned as success. -/
theorem C2_counterexample_no_schema_validation :
    extract_invoice (stubEnv "\x7b\"x\":1\x7d") defaultState ["aW1n"]
      = some (JsonValue.obj [("x", JsonValue.num 1 0)]) ∧
    matchesInvoiceResponse (JsonValue.obj [("x", JsonValue.num 1 0)]) = false ∧
    process_invoice (stubEnv "\x7b\"x\":1\x7d") defaultState "aW1n"
      = EndpointResponse.ok (JsonValue.obj [("x", JsonValue.num 1 0)]) :=
  ⟨rfl, rfl, rfl⟩

/-- Claim C2, amended: every success value of `extract_invoice` is exactly
the repair-parsed model reply — truthy but otherwise unvalidated; the
Invoice schema is only sent to the external model as a response-schema
constraint, never checked locally. -/
theorem C2_success_is_unvalidated_repaired_reply :
    ∀ (env : ExternalEnv) (st : InvoiceParserState) (b64s : List String) (v : JsonValue),
      extract_invoice env st b64s = some v →
      pyFalsy v = false ∧
      ∃ imgParts text,
        decodeParts env.b64decode b64s = some imgParts ∧
        env.generate_content st.model (imgParts ++ [ReqPart.text user_prompt])
          generate_content_config = Except.ok (some text) ∧
        v = json_repair_loads text := by
  intro env st b64s v h
  simp only [extract_invoice, parse_json] at h
  split at h
  · cases h
  · rename_i imgParts hd
    split at h
    · cases h
    · cases h
    · rename_i text hg
      split at h
      · cases h
      · rename_i hf
        have hv := Option.some.inj h
        refine ⟨?_, imgParts, text, hd, hg, hv.symm⟩
        rw [← hv]
        cases hb : pyFalsy (json_repair_loads text) with
        | false => rfl
        | true => exact absurd hb hf

/-- Witness for the amended claim C2 at the stub model of the
counterexample. -/
theorem C2_success_is_unvalidated_repaired_reply_witness :
    pyFalsy (JsonValue.obj [("x", JsonValue.num 1 0)]) = false ∧
    ∃ imgParts text,
      decodeParts (stubEnv "\x7b\"x\":1\x7d").b64decode ["aW1n"] = some imgParts ∧
      (stubEnv "\x7b\"x\":1\x7d").generate_content defaultState.model
        (imgParts ++ [ReqPart.text user_prompt]) generate_content_config
        = Except.ok (some text) ∧
      JsonValue.obj [("x", JsonValue.num 1 0)] = json_repair_loads text :=
  C2_success_is_unvalidated_repaired_reply (stubEnv "\x7b\"x\":1\x7d") defaultState
    ["aW1n"] (JsonValue.obj [("x", JsonValue.num 1 0)]) rfl

/-- Claim C3: every exception raised inside the endpoint try block — the
adapter call as well as the result handling — yields HTTP 500 with the
fixed detail "Internal server error", independent of the message or kind
of the exception, so no exception detail reaches the caller. -/
theorem C3_uniform_internal_server_error :
    (∀ e : PyExc, endpoint_except (Except.error e)
      = EndpointResponse.httpError 500 "Internal server error") ∧
    (∀ (adapter : List String → Except PyExc (Option JsonValue)) (image : String) (e : PyExc),
      endpoint_try (adapter [stripDataUri image]) = Except.error e →
      process_invoice_with adapter image
        = EndpointResponse.httpError 500 "Internal server error") := by
  refine ⟨fun e => rfl, fun adapter image e h => ?_⟩
  simp only [process_invoice_with]
  rw [h]
  rfl

/-- Witness for claim C3 at an adapter that raises a plain exception. -/
theorem C3_uniform_internal_server_error_witness :
    process_invoice_with (fun _ => Except.error (PyExc.exception "boom")) "img"
      = EndpointResponse.httpError 500 "Internal server error" :=
  C3_uniform_internal_server_error.2 (fun _ => Except.error (PyExc.exception "boom"))
    "img" (PyExc.exception "boom") rfl

/-- Claim C4: when the request image contains a comma the endpoint hands
the adapter exactly the comma-free substring after the last comma, and
when it contains none it hands the string unchanged; the third conjunct
records that the endpoint body is the try/except around the adapter
applied to the singleton list of the stripped string. -/
theorem C4_strip_after_last_comma :
    (∀ image : String, ',' ∈ image.data →
      ',' ∉ (stripDataUri image).data ∧
      ∃ p, image.data = p ++ ',' :: (stripDataUri image).data) ∧
    (∀ image : String, ',' ∉ image.data → stripDataUri image = image) ∧
    (∀ (env : ExternalEnv) (st : InvoiceParserState) (image : String),
      process_invoice env st image
        = endpoint_except (endpoint_try (Except.ok (extract_invoice env st [stripDataUri image])))) := by
  refine ⟨?_, ?_, fun env st image => rfl⟩
  · intro image h
    have hs : (stripDataUri image).data = lastSeg image.data := by
      rw [stripDataUri, if_pos h]
      show pyNeg1 (pySplit ',' image.data) = lastSeg image.data
      exact pyNeg1_pySplit image.data
    rw [hs]
    exact ⟨(lastSeg_spec image.data).1, (lastSeg_spec image.data).2 h⟩
  · intro image h
    rw [stripDataUri, if_neg h]

/-- Witness for claim C4 at the data-URI of the spec and at a comma-free
payload. -/
theorem C4_strip_after_last_comma_witness :
    (',' ∉ (stripDataUri "data:image/jpeg;base64,XXXX").data ∧
      ∃ p, "data:image/jpeg;base64,XXXX".data
        = p ++ ',' :: (stripDataUri "data:image/jpeg;base64,XXXX").data) ∧
    stripDataUri "XXXX" = "XXXX" :=
  ⟨C4_strip_after_last_comma.1 "data:image/jpeg;base64,XXXX" (by decide),
   C4_strip_after_last_comma.2.1 "XXXX" (by decide)⟩

/-- Claim C5: a base64 payload whose decoding raises makes
`extract_invoice` return a failure, and the endpoint answers HTTP 500
rather than HTTP 200 with partial data. -/
theorem C5_decode_failure_is_500 :
    (∀ (env : ExternalEnv) (st : InvoiceParserState) (b64s : List String) (img : String),
      img ∈ b64s → env.b64decode img = none → extract_invoice env st b64s = none) ∧
    (∀ (env : ExternalEnv) (st : InvoiceParserState) (image : String),
      env.b64decode (stripDataUri image) = none →
      process_invoice env st image
        = EndpointResponse.httpError 500 "Internal server error") := by
  have general : ∀ (env : ExternalEnv) (st : InvoiceParserState) (b64s : List String)
      (img : String), img ∈ b64s → env.b64decode img = none →
      extract_invoice env st b64s = none := by
    intro env st b64s img hmem hfail
    have hd := decodeParts_eq_none env.b64decode b64s img hmem hfail
    simp only [extract_invoice]
    rw [hd]
  refine ⟨general, fun env st image hfail => ?_⟩
  have h1 := general env st [stripDataUri image] (stripDataUri image)
    (List.mem_singleton.mpr rfl) hfail
  simp only [process_invoice, process_invoice_with]
  rw [h1]
  rfl

/-- Witness for claim C5 at the environment whose decoding always
raises. -/
theorem C5_decode_failure_is_500_witness :
    extract_invoice failDecodeEnv defaultState ["x"] = none ∧
    process_invoice failDecodeEnv defaultState "x"
      = EndpointResponse.httpError 500 "Internal server error" :=
  ⟨C5_decode_failure_is_500.1 failDecodeEnv defaultState ["x"] "x"
      (List.mem_singleton.mpr rfl) rfl,
   C5_decode_failure_is_500.2 failDecodeEnv defaultState "x" rfl⟩

/-- Claim C6: a stub model reply that is the empty string or plain
non-JSON text repairs to nothing usable, `extract_invoice` returns a
failure, and the endpoint answers HTTP 500, not HTTP 200 with an empty
body. -/
theorem C6_empty_or_garbage_reply_is_500 :
    extract_invoice (stubEnv "") defaultState ["aW1n"] = none ∧
    extract_invoice (stubEnv "this is not json") defaultState ["aW1n"] = none ∧
    process_invoice (stubEnv "") defaultState "aW1n"
      = EndpointResponse.httpError 500 "Internal server error" ∧
    process_invoice (stubEnv "this is not json") defaultState "aW1n"
      = EndpointResponse.httpError 500 "Internal server error" :=
  ⟨rfl, rfl, rfl, rfl⟩

/-- Claim C7: the trailing-comma reply of the spec repairs to exactly the
object denoted by the reply without the trailing comma. -/
theorem C7_trailing_comma_repair :
    parse_json "\x7b\"date\":\"01-01-2024\",\"products\":[],\x7d"
      = some (JsonValue.obj
          [("date", JsonValue.str "01-01-2024"), ("products", JsonValue.arr [])]) ∧
    json_repair_loads "\x7b\"date\":\"01-01-2024\",\"products\":[],\x7d"
      = json_repair_loads "\x7b\"date\":\"01-01-2024\",\"products\":[]\x7d" :=
  ⟨rfl, rfl⟩

/-- Claim C8: the handler mutates no state — one call returns the parser
state unchanged — so a second call with the identical request body against
the same deterministic external environment returns the identical
response. -/
theorem C8_idempotent_under_deterministic_model :
    ∀ (env : ExternalEnv) (st : InvoiceParserState) (image : String),
      (process_invoice_call env st image).2 = st ∧
      (process_invoice_call env (process_invoice_call env st image).2 image).1
        = (process_invoice_call env st image).1 :=
  fun _ _ _ => ⟨rfl, rfl⟩

/-- Claim C9: constructing `InvoiceParser` with no api_key argument while
`GEMINI_API_KEY` is absent raises `ValueError` at initialization, whatever
the client constructor would do — so before any external call is
attempted. -/
theorem C9_missing_key_fails_fast :
    ∀ (client_init : String → Except String Unit) (model : String),
      invoiceParser_init none client_init none model
        = Except.error "Gemini API key not provided" :=
  fun _ _ => rfl

/-- Claim C10: a model reply whose repair yields a falsy value — the six
falsy JSON documents listed among them — makes `extract_invoice` return a
failure, and the endpoint answers HTTP 500 rather than an empty
success. -/
theorem C10_falsy_repair_is_failure :
    (∀ (dec : String → Option (List Nat)) (st : InvoiceParserState)
      (b64s : List String) (text : String),
      pyFalsy (json_repair_loads text) = true →
      extract_invoice
        { b64decode := dec, generate_content := fun _ _ _ => Except.ok (some text) }
        st b64s = none) ∧
    pyFalsy (json_repair_loads "\x7b\x7d") = true ∧
    pyFalsy (json_repair_loads "[]") = true ∧
    pyFalsy (json_repair_loads "\"\"") = true ∧
    pyFalsy (json_repair_loads "0") = true ∧
    pyFalsy (json_repair_loads "false") = true ∧
    pyFalsy (json_repair_loads "null") = true ∧
    (∀ (dec : String → Option (List Nat)) (st : InvoiceParserState)
      (image text : String),
      pyFalsy (json_repair_loads text) = true →
      process_invoice
        { b64decode := dec, generate_content := fun _ _ _ => Except.ok (some text) }
        st image = EndpointResponse.httpError 500 "Internal server error") := by
  have general : ∀ (dec : String → Option (List Nat)) (st : InvoiceParserState)
      (b64s : List String) (text : String),
      pyFalsy (json_repair_loads text) = true →
      extract_invoice
        { b64decode := dec, generate_content := fun _ _ _ => Except.ok (some text) }
        st b64s = none := by
    intro dec st b64s text hf
    simp only [extract_invoice, parse_json]
    cases hd : decodeParts dec b64s with
    | none => rfl
    | some imgParts =>
      rw [if_pos hf]
  refine ⟨general, rfl, rfl, rfl, rfl, rfl, rfl, fun dec st image text hf => ?_⟩
  have h1 := general dec st [stripDataUri image] text hf
  simp only [process_invoice, process_invoice_with]
  rw [h1]
  rfl

/-- Witness for claim C10 at the empty-object reply. -/
theorem C10_falsy_repair_is_failure_witness :
    extract_invoice (stubEnv "\x7b\x7d") defaultState ["aW1n"] = none :=
  C10_falsy_repair_is_failure.1 (fun _ => some []) defaultState ["aW1n"] "\x7b\x7d" rfl

end Invoicing
